import Mathlib

/-!
Shallow embedding of the Trading-Engine repository (condition evaluator,
strategy models, strategy engine, market-data simulator), over `Rat` for
Python floats and with explicit parameters for wall-clock time and for the
random draws.  Each definition is translated from the corresponding Python
function in `src/`.
-/

namespace Trading

/-! ## condition_eval.py: regex substitution engine

`re.sub(pat, repl, s)` scans left to right; at each position it either
matches (consuming at least one character, emitting the replacement and
continuing after the match) or moves on one character.  `subAll` is that
scan, with the per-position matcher `m` returning the replacement and the
remainder after the match; the fuel argument only bounds the recursion and
`l.length` always suffices. -/

def subAll (m : List Char → Option (List Char × List Char)) :
    Nat → List Char → List Char
  | 0, l => l
  | _ + 1, [] => []
  | fuel + 1, c :: cs =>
    match m (c :: cs) with
    | none => c :: subAll m fuel cs
    | some (rep, rest) => rep ++ subAll m fuel rest

/-- Run one whole `re.sub` / `str.replace` pass over `l`. -/
def runSub (m : List Char → Option (List Char × List Char))
    (l : List Char) : List Char :=
  subAll m l.length l

/-- Whitespace characters matched by the regex class `\s` (ASCII range). -/
def isSpaceChar (c : Char) : Bool :=
  c = ' ' || c = '\t' || c = '\n' || c = '\r' || c = '\x0b' || c = '\x0c'

/-- Characters matched by the regex class `[><=!]`. -/
def isCmpChar (c : Char) : Bool :=
  c = '>' || c = '<' || c = '=' || c = '!'

/-- Characters matched by the regex class `[():]`. -/
def isParenChar (c : Char) : Bool :=
  c = '(' || c = ')' || c = ':'

/-- Start code points of the Unicode ranges of category Nd (decimal
digits); each range is exactly ten consecutive code points with digit
values 0..9 in order.  Python's `\d` on `str` patterns matches exactly
these characters, and `int()` parses them by these values. -/
def ndRangeStarts : List Nat :=
  [48, 1632, 1776, 1984, 2406, 2534, 2662, 2790, 2918, 3046, 3174, 3302,
   3430, 3558, 3664, 3792, 3872, 4160, 4240, 6112, 6160, 6470, 6608, 6784,
   6800, 6992, 7088, 7232, 7248, 42528, 43216, 43264, 43472, 43504, 43600,
   44016, 65296, 66720, 68912, 69734, 69872, 69942, 70096, 70384, 70736,
   70864, 71248, 71360, 71472, 71904, 72016, 72784, 73040, 73120, 92768,
   92864, 93008, 120782, 120792, 120802, 120812, 120822, 123200, 123632,
   125264, 130032]

/-- The regex class `\d`: any Unicode decimal digit (category Nd). -/
def isPyDigit (c : Char) : Bool :=
  ndRangeStarts.any (fun b => b ≤ c.toNat && c.toNat < b + 10)

/-- The numeric value of a Unicode decimal digit, as `int()` parses it
(its offset within its Nd range). -/
def pyDigitVal (c : Char) : Nat :=
  match ndRangeStarts.find? (fun b => b ≤ c.toNat && c.toNat < b + 10) with
  | some b => c.toNat - b
  | none => 0

/-- Matcher for `str.replace(" AND ", " and ")`. -/
def matchAND (l : List Char) : Option (List Char × List Char) :=
  match l with
  | ' ' :: 'A' :: 'N' :: 'D' :: ' ' :: rest => some ((" and ").data, rest)
  | _ => none

/-- Matcher for `str.replace(" OR ", " or ")`. -/
def matchOR (l : List Char) : Option (List Char × List Char) :=
  match l with
  | ' ' :: 'O' :: 'R' :: ' ' :: rest => some ((" or ").data, rest)
  | _ => none

/-- Decimal digits of a natural number (Python `str(n)`); `fuel` bounds the
number of digits and any `fuel` with `n < 10 ^ fuel` is enough. -/
def natChars : Nat → Nat → List Char
  | 0, _ => []
  | fuel + 1, n =>
    if n < 10 then [Char.ofNat (48 + n)]
    else natChars fuel (n / 10) ++ [Char.ofNat (48 + n % 10)]

/-- The one-digit-hour alternative of the time-literal pattern
`(\d{1,2}:\d{2})`: a match `h:mm` at the head of `l`, replaced by
`str(h*60 + m)`.  `\d` is any Unicode decimal digit and `int()` parses it
by its Nd digit value. -/
def matchTime1 (l : List Char) : Option (List Char × List Char) :=
  match l with
  | a :: ':' :: d :: e :: rest =>
    if isPyDigit a && isPyDigit d && isPyDigit e then
      some (natChars 6 (pyDigitVal a * 60 +
        (pyDigitVal d * 10 + pyDigitVal e)), rest)
    else none
  | _ => none

/-- Matcher for the time-literal pattern `(\d{1,2}:\d{2})` of
`ConditionEvaluator._normalize_time`, replacement `str(h*60 + m)`.
The two-digit hour is tried first (greedy `\d{1,2}`), falling back to the
one-digit alternative. -/
def matchTime (l : List Char) : Option (List Char × List Char) :=
  match l with
  | a :: b :: ':' :: d :: e :: rest =>
    if isPyDigit a && isPyDigit b && isPyDigit d && isPyDigit e then
      some (natChars 6 ((pyDigitVal a * 10 + pyDigitVal b) * 60 +
        (pyDigitVal d * 10 + pyDigitVal e)), rest)
    else matchTime1 l
  | _ => matchTime1 l

/-- `ConditionEvaluator._normalize_time` from `src/condition_eval.py`. -/
def normalizeTime (l : List Char) : List Char := runSub matchTime l

/-- String-level `_normalize_time`. -/
def normalizeTimeStr (s : String) : String :=
  String.mk (normalizeTime s.data)

/-! ### `_is_safe_expression`: the six stripping passes -/

/-- Matcher for the number pattern `\d+\.?\d*` (with `\d` any Unicode
decimal digit), stripped to nothing. -/
def matchNum (l : List Char) : Option (List Char × List Char) :=
  match l with
  | c :: cs =>
    if isPyDigit c then
      match cs.dropWhile isPyDigit with
      | '.' :: cs2 => some ([], cs2.dropWhile isPyDigit)
      | r1 => some ([], r1)
    else none
  | [] => none

/-- Matcher for `price|time`, stripped to nothing. -/
def matchVar (l : List Char) : Option (List Char × List Char) :=
  match l with
  | 'p' :: 'r' :: 'i' :: 'c' :: 'e' :: rest => some ([], rest)
  | 't' :: 'i' :: 'm' :: 'e' :: rest => some ([], rest)
  | _ => none

/-- Matcher for `[><=!]+`, stripped to nothing. -/
def matchCmp (l : List Char) : Option (List Char × List Char) :=
  match l with
  | c :: cs => if isCmpChar c then some ([], cs.dropWhile isCmpChar) else none
  | [] => none

/-- Matcher for `\s+`, stripped to nothing.  Python's `\s` additionally
matches non-ASCII Unicode whitespace (e.g. U+00A0); this is modelled at
ASCII scope because it cannot change the verdict of `evaluate`: an
expression containing such a character is rejected here by the filter,
while in the source the filter strips the character but `eval` then raises
`SyntaxError` ("invalid non-printable character") on it, so both return
`false`. -/
def matchSpace (l : List Char) : Option (List Char × List Char) :=
  match l with
  | c :: cs => if isSpaceChar c then some ([], cs.dropWhile isSpaceChar) else none
  | [] => none

/-- Matcher for `and|or`, stripped to nothing. -/
def matchConn (l : List Char) : Option (List Char × List Char) :=
  match l with
  | 'a' :: 'n' :: 'd' :: rest => some ([], rest)
  | 'o' :: 'r' :: rest => some ([], rest)
  | _ => none

/-- Matcher for `[():]`, stripped to nothing. -/
def matchParen (l : List Char) : Option (List Char × List Char) :=
  match l with
  | c :: cs => if isParenChar c then some ([], cs) else none
  | [] => none

/-- The residue of the expression after the six stripping passes of
`ConditionEvaluator._is_safe_expression`, in source order: numbers,
variables, comparison operators, whitespace, logical operators,
parentheses and colons. -/
def cleanedExpr (l : List Char) : List Char :=
  runSub matchParen (runSub matchConn (runSub matchSpace
    (runSub matchCmp (runSub matchVar (runSub matchNum l)))))

/-- `ConditionEvaluator._is_safe_expression` from `src/condition_eval.py`:
safe iff nothing remains after stripping the allow-list. -/
def is_safe_expression (l : List Char) : Bool := cleanedExpr l = []

/-! ### The `eval` step of `_safe_eval`

`_safe_eval` hands the preprocessed expression to Python's `eval` with the
variables `price` and `time` bound (the `abs`/`max`/`min` entries of
`safe_dict` are unreachable: the identifiers `abs`, `max` and `min` never
survive `_is_safe_expression`).  We model `eval` on the expression fragment
reachable through the safety filter: numeric literals, names, chained
comparisons, short-circuiting `and`/`or`, parentheses, and parenthesized
assignment expressions (`name := expr`, which the filter lets through since
`:` and `=` are both stripped).  Python booleans are integers, so values are
a single numeric type; `True`/`False` are 1/0 and truthiness is `≠ 0`.
Any other input is a syntax or name error, which `evaluate` turns into
`false`. -/

inductive Tok
  | num (v : Rat)
  | name (s : List Char)
  | ltT | gtT | leT | geT | eqT | neT
  | walrusT
  | lparen | rparen
  | badT
  deriving DecidableEq

/-- Longest-match lexing of one numeric literal: Python rejects decimal
integer literals with a meaningful leading zero (`01`) but accepts them in
floats (`01.5`) and in all-zero integers (`00`).  Numeric literals are
ASCII-only (a non-ASCII digit cannot start or continue a literal). -/
def lexNum (l : List Char) : Option (Rat × List Char) :=
  match l with
  | c :: cs =>
    if c.isDigit then
      let ds := c :: cs.takeWhile Char.isDigit
      let intVal : Nat := ds.foldl (fun acc d => 10 * acc + (d.toNat - 48)) 0
      match cs.dropWhile Char.isDigit with
      | '.' :: cs2 =>
        let fs := cs2.takeWhile Char.isDigit
        let fracVal : Nat := fs.foldl (fun acc d => 10 * acc + (d.toNat - 48)) 0
        some ((intVal : Rat) + (fracVal : Rat) / ((10 : Rat) ^ fs.length),
          cs2.dropWhile Char.isDigit)
      | r1 =>
        if c = '0' && ds.any (fun d => d ≠ '0') then none
        else some ((intVal : Rat), r1)
    else none
  | [] => none

/-- Python identifier characters after the first: identifier continuation
includes Unicode decimal digits (category Nd is in XID_Continue), which is
how a name like `price٣` tokenizes as a single identifier.  Of the full
XID_Continue set only ASCII letters, `_` and Nd digits can survive the
safety filter, so this is exact on the expressions that reach `eval`. -/
def isIdentChar (c : Char) : Bool := c.isAlpha || isPyDigit c || c = '_'

/-- Tokenizer for the modelled `eval` fragment; `none` is a tokenize-time
syntax error. -/
def lexTokens : Nat → List Char → Option (List Tok)
  | 0, _ => none
  | _ + 1, [] => some []
  | fuel + 1, c :: cs =>
    if isSpaceChar c then lexTokens fuel cs
    else if c.isDigit then
      match lexNum (c :: cs) with
      | none => none
      | some (v, rest) => (lexTokens fuel rest).map (Tok.num v :: ·)
    else if c.isAlpha || c = '_' then
      let ident := c :: cs.takeWhile isIdentChar
      (lexTokens fuel (cs.dropWhile isIdentChar)).map (Tok.name ident :: ·)
    else
      match c, cs with
      | '>', '=' :: rest => (lexTokens fuel rest).map (Tok.geT :: ·)
      | '<', '=' :: rest => (lexTokens fuel rest).map (Tok.leT :: ·)
      | '=', '=' :: rest => (lexTokens fuel rest).map (Tok.eqT :: ·)
      | '!', '=' :: rest => (lexTokens fuel rest).map (Tok.neT :: ·)
      | ':', '=' :: rest => (lexTokens fuel rest).map (Tok.walrusT :: ·)
      | '>', rest => (lexTokens fuel rest).map (Tok.gtT :: ·)
      | '<', rest => (lexTokens fuel rest).map (Tok.ltT :: ·)
      | '(', rest => (lexTokens fuel rest).map (Tok.lparen :: ·)
      | ')', rest => (lexTokens fuel rest).map (Tok.rparen :: ·)
      | _, _ => none

inductive CmpOp
  | lt | gt | le | ge | eq | ne
  deriving DecidableEq

/-- AST of the modelled `eval` fragment. -/
inductive PExpr
  | num (v : Rat)
  | var (s : List Char)
  | chain (first : PExpr) (rest : List (CmpOp × PExpr))
  | andE (a b : PExpr)
  | orE (a b : PExpr)
  | walrus (s : List Char) (rhs : PExpr)

def tokCmpOp : Tok → Option CmpOp
  | .ltT => some .lt
  | .gtT => some .gt
  | .leT => some .le
  | .geT => some .ge
  | .eqT => some .eq
  | .neT => some .ne
  | _ => none

/-- Recursive-descent parser (`or` over `and` over comparison chains over
atoms), mirroring Python's grammar on this fragment.  The keywords `and`
and `or` are name tokens rejected as atoms. -/
def parseOrE : Nat → List Tok → Option (PExpr × List Tok)
  | 0, _ => none
  | fuel + 1, ts =>
    match parseAndE fuel ts with
    | none => none
    | some (a, rest) => parseOrTail fuel a rest
where
  parseOrTail : Nat → PExpr → List Tok → Option (PExpr × List Tok)
    | 0, _, _ => none
    | fuel + 1, a, ts =>
      match ts with
      | Tok.name s :: rest =>
        if s = ("or").data then
          match parseAndE fuel rest with
          | none => none
          | some (b, rest2) => parseOrTail fuel (PExpr.orE a b) rest2
        else some (a, ts)
      | _ => some (a, ts)
  parseAndE : Nat → List Tok → Option (PExpr × List Tok)
    | 0, _ => none
    | fuel + 1, ts =>
      match parseCmpE fuel ts with
      | none => none
      | some (a, rest) => parseAndTail fuel a rest
  parseAndTail : Nat → PExpr → List Tok → Option (PExpr × List Tok)
    | 0, _, _ => none
    | fuel + 1, a, ts =>
      match ts with
      | Tok.name s :: rest =>
        if s = ("and").data then
          match parseCmpE fuel rest with
          | none => none
          | some (b, rest2) => parseAndTail fuel (PExpr.andE a b) rest2
        else some (a, ts)
      | _ => some (a, ts)
  parseCmpE : Nat → List Tok → Option (PExpr × List Tok)
    | 0, _ => none
    | fuel + 1, ts =>
      match parseAtomE fuel ts with
      | none => none
      | some (a, rest) => parseCmpTail fuel [] a rest
  parseCmpTail : Nat → List (CmpOp × PExpr) → PExpr → List Tok →
      Option (PExpr × List Tok)
    | 0, _, _, _ => none
    | fuel + 1, acc, a, ts =>
      match ts with
      | t :: rest =>
        match tokCmpOp t with
        | some op =>
          match parseAtomE fuel rest with
          | none => none
          | some (b, rest2) => parseCmpTail fuel (acc ++ [(op, b)]) a rest2
        | none =>
          some (match acc with | [] => a | _ => PExpr.chain a acc, ts)
      | [] => some (match acc with | [] => a | _ => PExpr.chain a acc, ts)
  parseAtomE : Nat → List Tok → Option (PExpr × List Tok)
    | 0, _ => none
    | fuel + 1, ts =>
      match ts with
      | Tok.num v :: rest => some (PExpr.num v, rest)
      | Tok.name s :: rest =>
        if s = ("and").data || s = ("or").data then none
        else some (PExpr.var s, rest)
      | Tok.lparen :: Tok.name s :: Tok.walrusT :: rest =>
        if s = ("and").data || s = ("or").data then none
        else
          match parseOrE fuel rest with
          | none => none
          | some (a, Tok.rparen :: rest2) => some (PExpr.walrus s a, rest2)
          | some _ => none
      | Tok.lparen :: rest =>
        match parseOrE fuel rest with
        | none => none
        | some (a, Tok.rparen :: rest2) => some (a, rest2)
        | some _ => none
      | _ => none

/-- Variable environment of the `eval` call: `price` and `time`, extended
by assignment expressions. -/
def evalCmpOp (op : CmpOp) (a b : Rat) : Rat :=
  match op with
  | .lt => if a < b then 1 else 0
  | .gt => if a > b then 1 else 0
  | .le => if a ≤ b then 1 else 0
  | .ge => if a ≥ b then 1 else 0
  | .eq => if a = b then 1 else 0
  | .ne => if a ≠ b then 1 else 0

/-- Interpreter with Python's short-circuit semantics (`and`/`or` return an
operand, chains stop at the first false link) and environment threading for
assignment expressions; `none` is a `NameError`. -/
def evalP : Nat → PExpr → List (List Char × Rat) →
    Option (Rat × List (List Char × Rat))
  | 0, _, _ => none
  | fuel + 1, e, env =>
    match e with
    | .num v => some (v, env)
    | .var s =>
      match env.lookup s with
      | none => none
      | some v => some (v, env)
    | .andE a b =>
      match evalP fuel a env with
      | none => none
      | some (va, env1) =>
        if va = 0 then some (va, env1) else evalP fuel b env1
    | .orE a b =>
      match evalP fuel a env with
      | none => none
      | some (va, env1) =>
        if va ≠ 0 then some (va, env1) else evalP fuel b env1
    | .chain first rest =>
      match evalP fuel first env with
      | none => none
      | some (vf, env1) => evalChain fuel vf rest env1
    | .walrus s rhs =>
      match evalP fuel rhs env with
      | none => none
      | some (v, env1) => some (v, (s, v) :: env1)
where
  evalChain : Nat → Rat → List (CmpOp × PExpr) → List (List Char × Rat) →
      Option (Rat × List (List Char × Rat))
    | 0, _, _, _ => none
    | _ + 1, _, [], env => some (1, env)
    | fuel + 1, va, (op, b) :: rest, env =>
      match evalP fuel b env with
      | none => none
      | some (vb, env1) =>
        if evalCmpOp op va vb = 0 then some (0, env1)
        else evalChain fuel vb rest env1

/-- `eval(expression, ..., eval_dict)` on the modelled fragment: tokenize,
parse a full expression (trailing tokens are a syntax error), interpret.
`none` is any eval-time exception. -/
def pyEval (l : List Char) (price : Rat) (time : Nat) : Option Rat :=
  match lexTokens (l.length + 1) l with
  | none => none
  | some ts =>
    match parseOrE (8 * ts.length + 8) ts with
    | some (e, []) =>
      match evalP (8 * ts.length + 8) e
          [(("price").data, price), (("time").data, (time : Rat))] with
      | none => none
      | some (v, _) => some v
    | _ => none

/-- The preprocessing of `_safe_eval`: replace the spaced uppercase logical
connectives, then normalize time literals. -/
def preprocessExpr (l : List Char) : List Char :=
  normalizeTime (runSub matchOR (runSub matchAND l))

/-- `ConditionEvaluator._safe_eval` from `src/condition_eval.py`: `none`
models the raised exception (unsafe expression, syntax error, eval fault). -/
def safe_eval (condition : List Char) (price : Rat) (time : Nat) : Option Rat :=
  let e := preprocessExpr condition
  if is_safe_expression e then pyEval e price time else none

/-- `ConditionEvaluator.evaluate` from `src/condition_eval.py`: every raised
exception is caught and collapsed to `false`; a value is returned through
`bool(result)` (truthiness of a Python number is `≠ 0`).  The wall-clock
`time` binding (minutes since midnight of `datetime.now()`) is an explicit
parameter. -/
def evaluate (condition : String) (current_price : Rat) (time : Nat) : Bool :=
  match safe_eval condition.data current_price time with
  | none => false
  | some v => v ≠ 0

/-! ## models.py -/

/-- `StrategyState` from `src/models.py`. -/
inductive StrategyState
  | CREATED
  | OPEN
  | CLOSED
  | FORCE_CLOSED
  | FAILED
  deriving DecidableEq

/-- `ExitReason` from `src/models.py`. -/
inductive ExitReason
  | STOP_LOSS
  | TARGET_HIT
  | EXIT_CONDITION
  | TIME_EXIT
  | MARKET_CLOSE
  | ERROR
  deriving DecidableEq

/-- `Strategy` dataclass from `src/models.py`.  Timestamps (`datetime.now()`)
are modelled as `Option Unit`: the code only ever records that they were set. -/
structure Strategy where
  strategy_id : String
  instrument : String
  entry_condition : String
  exit_condition : String
  quantity : Int
  max_loss : Rat
  max_profit : Rat
  state : StrategyState := .CREATED
  entry_price : Option Rat := none
  exit_price : Option Rat := none
  entry_time : Option Unit := none
  exit_time : Option Unit := none
  exit_reason : Option ExitReason := none
  pnl : Rat := 0
  deriving DecidableEq

namespace Strategy

/-- `Strategy.is_open` from `src/models.py`. -/
def is_open (s : Strategy) : Bool := s.state = .OPEN

/-- `Strategy.is_closed` from `src/models.py`. -/
def is_closed (s : Strategy) : Bool :=
  s.state = .CLOSED ∨ s.state = .FORCE_CLOSED

/-- `Strategy.calculate_pnl` from `src/models.py`. -/
def calculate_pnl (s : Strategy) (current_price : Rat) : Rat :=
  match s.entry_price with
  | none => 0
  | some e => (current_price - e) * (s.quantity : Rat)

/-- `Strategy.enter` from `src/models.py`. -/
def enter (s : Strategy) (price : Rat) : Strategy :=
  { s with state := .OPEN, entry_price := some price, entry_time := some () }

/-- `Strategy.exit` from `src/models.py`. -/
def exitPos (s : Strategy) (price : Rat) (reason : ExitReason) : Strategy :=
  { s with
    exit_price := some price
    exit_time := some ()
    exit_reason := some reason
    pnl := s.calculate_pnl price
    state := if reason = .MARKET_CLOSE then .FORCE_CLOSED else .CLOSED }

/-- `Strategy.mark_failed` from `src/models.py`. -/
def mark_failed (s : Strategy) : Strategy :=
  { s with state := .FAILED }

end Strategy

/-- `MarketTick` from `src/models.py`; the `datetime` timestamp carries no
engine-visible information and is omitted. -/
structure MarketTick where
  instrument : String
  price : Rat
  deriving DecidableEq

/-! ## market_sim.py -/

/-- `MarketDataSimulator.get_current_price`:
`self.current_prices.get(instrument, 0.0)`.  The price map is an
association list with distinct keys (a Python dict). -/
def get_current_price (prices : List (String × Rat)) (instrument : String) : Rat :=
  (prices.lookup instrument).getD 0

/-- Python `round(x, 2)`: round half to even at two decimal places
(modelled on exact rationals). -/
def roundHalfEven (q : Rat) : Int :=
  let f := q.floor
  if q - (f : Rat) < 1 / 2 then f
  else if (1 : Rat) / 2 < q - (f : Rat) then f + 1
  else if f % 2 = 0 then f else f + 1

/-- `round(new_price, 2)` from `_generate_and_broadcast_ticks`. -/
def round2 (q : Rat) : Rat := (roundHalfEven (q * 100) : Rat) / 100

/-- A subscriber queue (`asyncio.Queue(maxsize=100)`): a FIFO holding at
most 100 ticks.  `put` with the 0.1 s timeout succeeds exactly when the
queue has room; a full queue drops the tick (the timeout branch). -/
def putQueue (q : List MarketTick) (t : MarketTick) : List MarketTick :=
  if q.length < 100 then q ++ [t] else q

/-- State of `MarketDataSimulator`: the price map and the subscriber
registry (instrument → its set of queues, keyed in insertion order). -/
structure SimState where
  current_prices : List (String × Rat)
  subscribers : List (String × List (List MarketTick))
  deriving DecidableEq

/-- Dict assignment `self.current_prices[instrument] = new_price`; it is
only executed after a successful read of the same key, so replacement
suffices. -/
def updatePrice (k : String) (v : Rat) : List (String × Rat) →
    List (String × Rat)
  | [] => []
  | (a, b) :: rest =>
    (if a = k then (k, v) else (a, b)) :: updatePrice k v rest

/-- The loop body of `_generate_and_broadcast_ticks`, iterating over
`list(self.subscribers.keys())` and threading the price map; `u instr` is
the draw of `random.uniform(-v, v)` for that instrument this round.
A key missing from `current_prices` raises `KeyError`, modelled as `none`. -/
def genRoundGo (u : String → Rat) :
    List (String × List (List MarketTick)) → List (String × Rat) →
    Option (List (String × Rat) × List (String × List (List MarketTick)))
  | [], prices => some (prices, [])
  | (instr, qs) :: rest, prices =>
    match prices.lookup instr with
    | none => none
    | some p =>
      let newPrice := round2 (p * (1 + u instr))
      let tick : MarketTick := ⟨instr, newPrice⟩
      match genRoundGo u rest (updatePrice instr newPrice prices) with
      | none => none
      | some (pricesF, subsF) =>
        some (pricesF, (instr, qs.map (fun q => putQueue q tick)) :: subsF)

/-- `MarketDataSimulator._generate_and_broadcast_ticks` (one round). -/
def genRound (u : String → Rat) (st : SimState) : Option SimState :=
  (genRoundGo u st.subscribers st.current_prices).map
    fun pr => ⟨pr.1, pr.2⟩

/-! ## strategy_engine.py -/

/-- `StrategyEngine._evaluate_strategy` from `src/strategy_engine.py`,
inlining `_enter_position`/`_exit_position` (their `Order` records are
audit artifacts that are only logged). -/
def evaluateStrategy (s : Strategy) (tickPrice : Rat) (time : Nat) : Strategy :=
  if s.state = .CREATED then
    if evaluate s.entry_condition tickPrice time then s.enter tickPrice else s
  else if s.state = .OPEN then
    let current_pnl := s.calculate_pnl tickPrice
    if current_pnl ≤ -s.max_loss then s.exitPos tickPrice .STOP_LOSS
    else if current_pnl ≥ s.max_profit then s.exitPos tickPrice .TARGET_HIT
    else if evaluate s.exit_condition tickPrice time then
      s.exitPos tickPrice .EXIT_CONDITION
    else s
  else s

/-- `StrategyEngine._force_close_strategy` with reason `MARKET_CLOSE`. -/
def forceCloseStrategy (prices : List (String × Rat)) (s : Strategy) : Strategy :=
  if s.is_open then
    s.exitPos (get_current_price prices s.instrument) .MARKET_CLOSE
  else s

/-- `StrategyEngine.force_close_all` over the roster of active strategies. -/
def forceCloseAll (prices : List (String × Rat)) (active : List Strategy) :
    List Strategy :=
  active.map (fun s => if s.is_open then forceCloseStrategy prices s else s)

/-- The dictionary returned by `StrategyEngine.get_statistics`. -/
structure EngineStatistics where
  total : Nat
  completed : Nat
  force_closed : Nat
  failed : Nat
  never_entered : Nat
  total_pnl : Rat
  winners : Nat
  losers : Nat
  deriving DecidableEq

/-- `StrategyEngine.get_statistics` from `src/strategy_engine.py`.
`s.pnl` is a float defaulting to `0.0` and never `None`, so the
`if s.pnl is not None` guard always holds; `if s.pnl and s.pnl > 0` tests
truthiness (`≠ 0`) and then the sign. -/
def get_statistics (strategies : List Strategy) : EngineStatistics :=
  { total := strategies.length
    completed := (strategies.filter (fun s => s.state = .CLOSED)).length
    force_closed := (strategies.filter (fun s => s.state = .FORCE_CLOSED)).length
    failed := (strategies.filter (fun s => s.state = .FAILED)).length
    never_entered := (strategies.filter (fun s => s.state = .CREATED)).length
    total_pnl := (strategies.map (fun s => s.pnl)).sum
    winners := (strategies.filter (fun s => s.pnl ≠ 0 ∧ 0 < s.pnl)).length
    losers := (strategies.filter (fun s => s.pnl ≠ 0 ∧ s.pnl < 0)).length }

/-- The operations `_run_strategy` can apply to the strategy record it
owns: a per-tick evaluation, a force-close at the current price map, or
`mark_failed` from the exception handler (which has no state guard). -/
inductive EngineStep : Strategy → Strategy → Prop
  | tick (p : Rat) (t : Nat) (s : Strategy) : EngineStep s (evaluateStrategy s p t)
  | close (prices : List (String × Rat)) (s : Strategy) :
      EngineStep s (forceCloseStrategy prices s)
  | fail (s : Strategy) : EngineStep s s.mark_failed

/-- Strategy records reachable from `s0` by engine operations. -/
def Reachable (s0 s : Strategy) : Prop :=
  Relation.ReflTransGen EngineStep s0 s

/-- A freshly configured strategy (`Strategy(...)` with runtime defaults),
as built by the excluded loader layer. -/
def mkStrategy (sid instr ec xc : String) (q : Int) (ml mp : Rat) : Strategy :=
  { strategy_id := sid, instrument := instr, entry_condition := ec,
    exit_condition := xc, quantity := q, max_loss := ml, max_profit := mp }

/-! ## Statement-side predicates and concrete scenario inputs -/

/-- The characters of the specification's allow-list for condition strings:
decimal digits (all Unicode decimal digits, as the regex class `\d`
matches) and the decimal point, the letters of `price`, `time`, `AND`/`OR`
(in either case, as the evaluator lowercases the spaced connectives),
comparison operator characters, parentheses, the colon of time literals,
and whitespace. -/
def allowedChar (c : Char) : Bool :=
  isPyDigit c || c = '.' ||
  c ∈ ['p', 'r', 'i', 'c', 'e', 't', 'm', 'a', 'n', 'd', 'o'] ||
  c ∈ ['A', 'N', 'D', 'O', 'R'] ||
  isCmpChar c || isSpaceChar c || isParenChar c

/-- No position of `l` starts a `(\d{1,2}:\d{2})` time-literal match. -/
def noTimeMatch : List Char → Bool
  | [] => true
  | c :: cs => (matchTime (c :: cs)).isNone && noTimeMatch cs

/-- The field/state invariant that the lifecycle actually maintains:
an OPEN strategy has an entry price, and a CLOSED/FORCE_CLOSED strategy
has an entry price, an exit price and an exit reason. -/
def StrategyInv (s : Strategy) : Prop :=
  (s.state = .OPEN → s.entry_price ≠ none) ∧
  ((s.state = .CLOSED ∨ s.state = .FORCE_CLOSED) →
    s.entry_price ≠ none ∧ s.exit_price ≠ none ∧ s.exit_reason ≠ none)

/-- A freshly configured strategy used in concrete scenarios. -/
def c4_init : Strategy :=
  mkStrategy "S0" "NIFTY" "price > 0" "price < 0" 10 50 50

/-- A per-instrument volatility draw of +1 percent for every instrument. -/
def c5_u : String → Rat := fun _ => 1 / 100

/-- Simulator state with two priced instruments of which only one has a
subscriber entry (one subscriber with an empty queue). -/
def c5_state : SimState :=
  ⟨[("NIFTY", 100), ("BANKNIFTY", 200)], [("NIFTY", [[]])]⟩

/-- Statistics scenario, strategy 1: entry condition never satisfied by the
tick it sees, so it stays CREATED. -/
def s7_never : Strategy :=
  evaluateStrategy (mkStrategy "S1" "NIFTY" "price > 1000000" "price < 0" 10 50 50)
    100 555

/-- Statistics scenario, strategy 2: enters at 100, then its exit condition
fires at 105 for a realized profit of +50. -/
def s7_winner : Strategy :=
  evaluateStrategy
    (evaluateStrategy (mkStrategy "S2" "NIFTY" "price > 0" "price >= 105" 10 1000 10000)
      100 555)
    105 556

/-- Statistics scenario, strategy 3: enters at 100, then the stop-loss
fires at 95 for a realized loss of -50. -/
def s7_stopped : Strategy :=
  evaluateStrategy
    (evaluateStrategy (mkStrategy "S3" "NIFTY" "price > 0" "price < 0" 10 50 10000)
      100 555)
    95 556

/-- The three-strategy roster of the statistics scenario. -/
def s7_roster : List Strategy := [s7_never, s7_winner, s7_stopped]

end Trading

open Trading

/-! ## Helper lemmas -/

/-- If no position of `l` starts a time-literal match, the normalization
scan is the identity. -/
theorem subAll_matchTime_eq_of_noTimeMatch :
    ∀ (fuel : Nat) (l : List Char),
      noTimeMatch l = true → subAll matchTime fuel l = l := by
  intro fuel
  induction fuel with
  | zero => intro l _; rfl
  | succ n ih =>
    intro l h
    match l with
    | [] => rfl
    | c :: cs =>
      rw [noTimeMatch, Bool.and_eq_true, Option.isNone_iff_eq_none] at h
      rw [subAll, h.1, ih cs h.2]

/-! ## C1 helper lemmas: a disallowed character survives every pass -/

/-- A member that fails the predicate survives `dropWhile`. -/
theorem mem_dropWhile_of_mem {c : Char} {p : Char → Bool} {l : List Char}
    (hc : c ∈ l) (hp : p c = false) : c ∈ l.dropWhile p := by
  have hsplit := hc
  rw [← List.takeWhile_append_dropWhile p l] at hsplit
  rcases List.mem_append.mp hsplit with h | h
  · have := List.mem_takeWhile_imp h
    rw [hp] at this
    cases this
  · exact h

theorem allowedChar_of_digit {c : Char} (h : isPyDigit c = true) :
    allowedChar c = true := by simp [allowedChar, h]

theorem allowedChar_of_cmp {c : Char} (h : isCmpChar c = true) :
    allowedChar c = true := by simp [allowedChar, h]

theorem allowedChar_of_space {c : Char} (h : isSpaceChar c = true) :
    allowedChar c = true := by simp [allowedChar, h]

theorem allowedChar_of_paren {c : Char} (h : isParenChar c = true) :
    allowedChar c = true := by simp [allowedChar, h]

theorem not_digit_of_bad {c : Char} (hbad : allowedChar c = false) :
    isPyDigit c = false := by
  cases h : isPyDigit c with
  | false => rfl
  | true => rw [allowedChar_of_digit h] at hbad; cases hbad

theorem not_cmp_of_bad {c : Char} (hbad : allowedChar c = false) :
    isCmpChar c = false := by
  cases h : isCmpChar c with
  | false => rfl
  | true => rw [allowedChar_of_cmp h] at hbad; cases hbad

theorem not_space_of_bad {c : Char} (hbad : allowedChar c = false) :
    isSpaceChar c = false := by
  cases h : isSpaceChar c with
  | false => rfl
  | true => rw [allowedChar_of_space h] at hbad; cases hbad

/-- A character the scan cannot consume survives a whole `subAll` pass,
provided each match keeps it in the replacement or the remainder. -/
theorem mem_subAll_of_mem {c : Char}
    {m : List Char → Option (List Char × List Char)}
    (Hm : ∀ l rep rest, m l = some (rep, rest) → c ∈ l → c ∈ rep ∨ c ∈ rest) :
    ∀ (fuel : Nat) (l : List Char), c ∈ l → c ∈ subAll m fuel l := by
  intro fuel
  induction fuel with
  | zero => intro l hc; exact hc
  | succ n ih =>
    intro l hc
    match l with
    | [] => exact absurd hc (List.not_mem_nil c)
    | c0 :: cs =>
      rw [subAll]
      cases hm : m (c0 :: cs) with
      | none =>
        rcases List.mem_cons.mp hc with rfl | hc'
        · exact List.mem_cons_self _ _
        · exact List.mem_cons_of_mem _ (ih cs hc')
      | some pr =>
        obtain ⟨rep, rest⟩ := pr
        rcases Hm _ _ _ hm hc with h | h
        · exact List.mem_append_left _ h
        · exact List.mem_append_right _ (ih rest h)

/-- `runSub` version of the persistence lemma. -/
theorem mem_runSub_of_mem {c : Char}
    {m : List Char → Option (List Char × List Char)}
    (Hm : ∀ l rep rest, m l = some (rep, rest) → c ∈ l → c ∈ rep ∨ c ∈ rest)
    {l : List Char} (hc : c ∈ l) : c ∈ runSub m l :=
  mem_subAll_of_mem Hm l.length l hc

theorem matchAND_pres {c : Char} (hbad : allowedChar c = false) :
    ∀ l rep rest, matchAND l = some (rep, rest) → c ∈ l → c ∈ rep ∨ c ∈ rest := by
  intro l rep rest hm hc
  unfold matchAND at hm
  split at hm
  next rest' =>
    cases hm
    simp only [List.mem_cons] at hc
    rcases hc with rfl | rfl | rfl | rfl | rfl | hc <;>
      first
        | exact absurd hbad (by decide)
        | exact Or.inr hc
  next => cases hm

theorem matchOR_pres {c : Char} (hbad : allowedChar c = false) :
    ∀ l rep rest, matchOR l = some (rep, rest) → c ∈ l → c ∈ rep ∨ c ∈ rest := by
  intro l rep rest hm hc
  unfold matchOR at hm
  split at hm
  next rest' =>
    cases hm
    simp only [List.mem_cons] at hc
    rcases hc with rfl | rfl | rfl | rfl | hc <;>
      first
        | exact absurd hbad (by decide)
        | exact Or.inr hc
  next => cases hm

theorem matchTime1_pres {c : Char} (hbad : allowedChar c = false) :
    ∀ l rep rest, matchTime1 l = some (rep, rest) → c ∈ l → c ∈ rep ∨ c ∈ rest := by
  intro l rep rest hm hc
  unfold matchTime1 at hm
  split at hm
  next a d e rest' =>
    split at hm
    next hdig =>
      rw [Bool.and_eq_true, Bool.and_eq_true] at hdig
      obtain ⟨⟨ha, hd⟩, he⟩ := hdig
      cases hm
      simp only [List.mem_cons] at hc
      rcases hc with rfl | rfl | rfl | rfl | hc
      · rw [allowedChar_of_digit ha] at hbad; cases hbad
      · exact absurd hbad (by decide)
      · rw [allowedChar_of_digit hd] at hbad; cases hbad
      · rw [allowedChar_of_digit he] at hbad; cases hbad
      · exact Or.inr hc
    next => cases hm
  next => cases hm

theorem matchTime_pres {c : Char} (hbad : allowedChar c = false) :
    ∀ l rep rest, matchTime l = some (rep, rest) → c ∈ l → c ∈ rep ∨ c ∈ rest := by
  intro l rep rest hm hc
  unfold matchTime at hm
  split at hm
  next a b d e rest' =>
    split at hm
    next hdig =>
      rw [Bool.and_eq_true, Bool.and_eq_true, Bool.and_eq_true] at hdig
      obtain ⟨⟨⟨ha, hb⟩, hd⟩, he⟩ := hdig
      cases hm
      simp only [List.mem_cons] at hc
      rcases hc with rfl | rfl | rfl | rfl | rfl | hc
      · rw [allowedChar_of_digit ha] at hbad; cases hbad
      · rw [allowedChar_of_digit hb] at hbad; cases hbad
      · exact absurd hbad (by decide)
      · rw [allowedChar_of_digit hd] at hbad; cases hbad
      · rw [allowedChar_of_digit he] at hbad; cases hbad
      · exact Or.inr hc
    next => exact matchTime1_pres hbad _ _ _ hm hc
  next => exact matchTime1_pres hbad _ _ _ hm hc

theorem matchNum_pres {c : Char} (hbad : allowedChar c = false) :
    ∀ l rep rest, matchNum l = some (rep, rest) → c ∈ l → c ∈ rep ∨ c ∈ rest := by
  intro l rep rest hm hc
  unfold matchNum at hm
  split at hm
  next c0 cs =>
    split at hm
    next hdig0 =>
      split at hm
      next cs2 hdw =>
        cases hm
        refine Or.inr ?_
        rcases List.mem_cons.mp hc with rfl | hc'
        · rw [allowedChar_of_digit hdig0] at hbad; cases hbad
        · have hc'' := mem_dropWhile_of_mem hc' (not_digit_of_bad hbad)
          rw [hdw] at hc''
          rcases List.mem_cons.mp hc'' with rfl | hc3
          · exact absurd hbad (by decide)
          · exact mem_dropWhile_of_mem hc3 (not_digit_of_bad hbad)
      next hdw =>
        cases hm
        refine Or.inr ?_
        rcases List.mem_cons.mp hc with rfl | hc'
        · rw [allowedChar_of_digit hdig0] at hbad; cases hbad
        · exact mem_dropWhile_of_mem hc' (not_digit_of_bad hbad)
    next => cases hm
  next => cases hm

theorem matchVar_pres {c : Char} (hbad : allowedChar c = false) :
    ∀ l rep rest, matchVar l = some (rep, rest) → c ∈ l → c ∈ rep ∨ c ∈ rest := by
  intro l rep rest hm hc
  unfold matchVar at hm
  split at hm
  next rest' =>
    cases hm
    simp only [List.mem_cons] at hc
    rcases hc with rfl | rfl | rfl | rfl | rfl | hc <;>
      first
        | exact absurd hbad (by decide)
        | exact Or.inr hc
  next rest' =>
    cases hm
    simp only [List.mem_cons] at hc
    rcases hc with rfl | rfl | rfl | rfl | hc <;>
      first
        | exact absurd hbad (by decide)
        | exact Or.inr hc
  next => cases hm

theorem matchCmp_pres {c : Char} (hbad : allowedChar c = false) :
    ∀ l rep rest, matchCmp l = some (rep, rest) → c ∈ l → c ∈ rep ∨ c ∈ rest := by
  intro l rep rest hm hc
  unfold matchCmp at hm
  split at hm
  next c0 cs =>
    split at hm
    next hcmp0 =>
      cases hm
      refine Or.inr ?_
      rcases List.mem_cons.mp hc with rfl | hc'
      · rw [allowedChar_of_cmp hcmp0] at hbad; cases hbad
      · exact mem_dropWhile_of_mem hc' (not_cmp_of_bad hbad)
    next => cases hm
  next => cases hm

theorem matchSpace_pres {c : Char} (hbad : allowedChar c = false) :
    ∀ l rep rest, matchSpace l = some (rep, rest) → c ∈ l → c ∈ rep ∨ c ∈ rest := by
  intro l rep rest hm hc
  unfold matchSpace at hm
  split at hm
  next c0 cs =>
    split at hm
    next hsp0 =>
      cases hm
      refine Or.inr ?_
      rcases List.mem_cons.mp hc with rfl | hc'
      · rw [allowedChar_of_space hsp0] at hbad; cases hbad
      · exact mem_dropWhile_of_mem hc' (not_space_of_bad hbad)
    next => cases hm
  next => cases hm

theorem matchConn_pres {c : Char} (hbad : allowedChar c = false) :
    ∀ l rep rest, matchConn l = some (rep, rest) → c ∈ l → c ∈ rep ∨ c ∈ rest := by
  intro l rep rest hm hc
  unfold matchConn at hm
  split at hm
  next rest' =>
    cases hm
    simp only [List.mem_cons] at hc
    rcases hc with rfl | rfl | rfl | hc <;>
      first
        | exact absurd hbad (by decide)
        | exact Or.inr hc
  next rest' =>
    cases hm
    simp only [List.mem_cons] at hc
    rcases hc with rfl | rfl | hc <;>
      first
        | exact absurd hbad (by decide)
        | exact Or.inr hc
  next => cases hm

theorem matchParen_pres {c : Char} (hbad : allowedChar c = false) :
    ∀ l rep rest, matchParen l = some (rep, rest) → c ∈ l → c ∈ rep ∨ c ∈ rest := by
  intro l rep rest hm hc
  unfold matchParen at hm
  split at hm
  next c0 cs =>
    split at hm
    next hp0 =>
      cases hm
      refine Or.inr ?_
      rcases List.mem_cons.mp hc with rfl | hc'
      · rw [allowedChar_of_paren hp0] at hbad; cases hbad
      · exact hc'
    next => cases hm
  next => cases hm

/-! ## Claim theorems -/

unseal Rat.add Rat.sub Rat.mul Rat.inv in
/-- C1 counterexample: the token-level claim fails.  The expression
`(priceprice := 1)` contains the identifier `priceprice` — a token outside
the allow-list (it is neither `price` nor `time`) — yet `evaluate` returns
`true`: every character of a Python assignment expression is stripped by
`_is_safe_expression` (parentheses, `:` and `=` are all on the strip list),
so the filter passes it, and `eval` binds the fresh name and returns 1. -/
theorem c1_counterexample :
    evaluate "(priceprice := 1)" 0 0 = true ∧
    ("priceprice" : String) ≠ "price" ∧ ("priceprice" : String) ≠ "time" := by
  decide

/-- C1 amended: `evaluate` is a total boolean function of the condition
string, the price and the time (every exception is caught: the `Bool`
return type of this embedding is the "never propagates" guarantee), and for
every condition string containing any character outside the allow-list's
characters (digits and the decimal point, the letters of
`price`/`time`/`AND`/`OR` in either case, comparison characters,
parentheses, colon, whitespace), `evaluate` returns `false`: such a
character survives the connective replacements, the time normalization and
all six stripping passes, so `_is_safe_expression` rejects the expression
and the raised `ValueError` collapses to `false`. -/
theorem c1_fail_closed (cond : String) (p : Rat) (t : Nat) (c : Char)
    (hc : c ∈ cond.data) (hbad : allowedChar c = false) :
    evaluate cond p t = false := by
  have h1 : c ∈ preprocessExpr cond.data := by
    unfold preprocessExpr normalizeTime
    exact mem_runSub_of_mem (matchTime_pres hbad)
      (mem_runSub_of_mem (matchOR_pres hbad)
        (mem_runSub_of_mem (matchAND_pres hbad) hc))
  have h2 : c ∈ cleanedExpr (preprocessExpr cond.data) := by
    unfold cleanedExpr
    exact mem_runSub_of_mem (matchParen_pres hbad)
      (mem_runSub_of_mem (matchConn_pres hbad)
        (mem_runSub_of_mem (matchSpace_pres hbad)
          (mem_runSub_of_mem (matchCmp_pres hbad)
            (mem_runSub_of_mem (matchVar_pres hbad)
              (mem_runSub_of_mem (matchNum_pres hbad) h1)))))
  have h3 : is_safe_expression (preprocessExpr cond.data) = false := by
    unfold is_safe_expression
    cases hce : cleanedExpr (preprocessExpr cond.data) with
    | nil => rw [hce] at h2; cases h2
    | cons x xs => simp
  unfold evaluate safe_eval
  simp [h3]

/-- Witness for C1: `z` is not an allow-list character, so the condition
`price > z` evaluates to `false`. -/
theorem c1_fail_closed_witness : evaluate "price > z" 0 0 = false :=
  c1_fail_closed "price > z" 0 0 'z' (by decide) (by decide)

/-- C2: for an OPEN strategy, the per-tick evaluation checks the stop-loss
first, then the profit target, then the user exit condition, first match
wins: whenever `pnl(tick.price) <= -max_loss`, the strategy exits with
reason STOP_LOSS (landing in state CLOSED), for every wall-clock time and
hence regardless of whether the profit target or the user exit condition
also holds on that tick; the target fires only when the stop-loss did not,
and the exit condition only when neither risk check did. -/
theorem c2_stop_loss_priority (s : Strategy) (price : Rat) (time : Nat)
    (hopen : s.state = .OPEN) :
    (s.calculate_pnl price ≤ -s.max_loss →
      evaluateStrategy s price time = s.exitPos price .STOP_LOSS ∧
      (evaluateStrategy s price time).exit_reason = some .STOP_LOSS ∧
      (evaluateStrategy s price time).state = .CLOSED) ∧
    (¬ s.calculate_pnl price ≤ -s.max_loss →
      s.calculate_pnl price ≥ s.max_profit →
      evaluateStrategy s price time = s.exitPos price .TARGET_HIT) ∧
    (¬ s.calculate_pnl price ≤ -s.max_loss →
      ¬ s.calculate_pnl price ≥ s.max_profit →
      evaluate s.exit_condition price time = true →
      evaluateStrategy s price time = s.exitPos price .EXIT_CONDITION) := by
  refine ⟨fun hsl => ?_, fun h1 h2 => ?_, fun h1 h2 h3 => ?_⟩
  · have h1 : evaluateStrategy s price time = s.exitPos price .STOP_LOSS := by
      simp [evaluateStrategy, hopen, hsl]
    refine ⟨h1, ?_, ?_⟩ <;> rw [h1] <;> simp [Strategy.exitPos]
  · simp [evaluateStrategy, hopen, h1, h2]
  · simp [evaluateStrategy, hopen, h1, h2, h3]

unseal Rat.add Rat.sub Rat.mul Rat.inv in
/-- Witness for C2: an OPEN strategy entered at 100 with quantity 10 and
max_loss 50, on a tick at 90 that also satisfies its exit condition
`price < 200`, still resolves to STOP_LOSS. -/
theorem c2_stop_loss_priority_witness :
    evaluateStrategy
      { mkStrategy "W2" "NIFTY" "price > 0" "price < 200" 10 50 1000 with
        state := .OPEN, entry_price := some 100 } 90 555 =
    Strategy.exitPos
      { mkStrategy "W2" "NIFTY" "price > 0" "price < 200" 10 50 1000 with
        state := .OPEN, entry_price := some 100 } 90 .STOP_LOSS := by
  exact ((c2_stop_loss_priority _ 90 555 rfl).1 (by decide)).1

/-- C9: a strategy in a terminal state CLOSED or FORCE_CLOSED is left
entirely unchanged by the per-tick state-transition step and by the
force-close operation, so it never returns to OPEN. -/
theorem c9_terminal_states_final (s : Strategy) (price : Rat) (time : Nat)
    (prices : List (String × Rat))
    (h : s.state = .CLOSED ∨ s.state = .FORCE_CLOSED) :
    evaluateStrategy s price time = s ∧ forceCloseStrategy prices s = s := by
  rcases h with h | h <;>
    exact ⟨by simp [evaluateStrategy, h],
      by simp [forceCloseStrategy, Strategy.is_open, h]⟩

/-- Witness for C9 at a concrete CLOSED strategy. -/
theorem c9_terminal_states_final_witness :
    evaluateStrategy
      { mkStrategy "W9" "NIFTY" "price > 0" "price < 0" 10 50 50 with
        state := .CLOSED } 100 555 =
    { mkStrategy "W9" "NIFTY" "price > 0" "price < 0" 10 50 50 with
      state := .CLOSED } := by
  exact (c9_terminal_states_final _ 100 555 [] (Or.inl rfl)).1

/-- C3: `force_close_all` sends every OPEN strategy of the roster through
the force-close path: its image is in the resulting roster, in state
FORCE_CLOSED, with exit reason MARKET_CLOSE, and with exit price equal to
the simulator's last known current price for its instrument. -/
theorem c3_force_close_all_open (prices : List (String × Rat))
    (active : List Strategy) (s : Strategy)
    (hmem : s ∈ active) (hopen : s.state = .OPEN) :
    forceCloseStrategy prices s ∈ forceCloseAll prices active ∧
    (forceCloseStrategy prices s).state = .FORCE_CLOSED ∧
    (forceCloseStrategy prices s).exit_reason = some .MARKET_CLOSE ∧
    (forceCloseStrategy prices s).exit_price =
      some (get_current_price prices s.instrument) := by
  have hio : s.is_open = true := by simp [Strategy.is_open, hopen]
  have hfc : forceCloseStrategy prices s =
      s.exitPos (get_current_price prices s.instrument) .MARKET_CLOSE := by
    simp [forceCloseStrategy, hio]
  refine ⟨?_, ?_, ?_, ?_⟩
  · have harg : (fun x => if x.is_open then forceCloseStrategy prices x else x) s
        = forceCloseStrategy prices s := by simp [hio]
    exact harg ▸ List.mem_map_of_mem _ hmem
  · rw [hfc]; simp [Strategy.exitPos]
  · rw [hfc]; simp [Strategy.exitPos]
  · rw [hfc]; simp [Strategy.exitPos]

/-- Witness for C3: one OPEN strategy on NIFTY force-closed at the
last known price 20100. -/
theorem c3_force_close_all_open_witness :
    (forceCloseStrategy [("NIFTY", (20100 : Rat))]
        { mkStrategy "W3" "NIFTY" "price > 0" "price < 0" 10 50 50 with
          state := .OPEN, entry_price := some 20000 }).exit_price =
      some (get_current_price [("NIFTY", (20100 : Rat))] "NIFTY") := by
  exact (c3_force_close_all_open [("NIFTY", 20100)] [_] _ (List.mem_singleton.mpr rfl)
    rfl).2.2.2

/-- C10: a missing instrument yields current price 0.0, and force-closing
an OPEN strategy on such an instrument records exit price 0 and
pnl = (0 - entry_price) * quantity. -/
theorem c10_missing_instrument_price (prices : List (String × Rat))
    (instr : String) (s : Strategy) (e : Rat)
    (habs : prices.lookup instr = none) (hinstr : s.instrument = instr)
    (hopen : s.state = .OPEN) (hentry : s.entry_price = some e) :
    get_current_price prices instr = 0 ∧
    (forceCloseStrategy prices s).exit_price = some 0 ∧
    (forceCloseStrategy prices s).pnl = (0 - e) * (s.quantity : Rat) := by
  have hgp : get_current_price prices instr = 0 := by
    simp [get_current_price, habs]
  have hio : s.is_open = true := by simp [Strategy.is_open, hopen]
  refine ⟨hgp, ?_, ?_⟩ <;>
    simp [forceCloseStrategy, hio, Strategy.exitPos, hinstr, hgp,
      Strategy.calculate_pnl, hentry]

/-- Witness for C10 with an empty price map. -/
theorem c10_missing_instrument_price_witness :
    (forceCloseStrategy ([] : List (String × Rat))
        { mkStrategy "W10" "GONE" "price > 0" "price < 0" 10 50 50 with
          state := .OPEN, entry_price := some 100 }).pnl =
      (0 - 100) * ((10 : Int) : Rat) := by
  exact (c10_missing_instrument_price [] "GONE" _ 100 rfl rfl rfl rfl).2.2

/-- C8 counterexample: time normalization is not idempotent in general.
On `"12:34:56"` the first pass rewrites the leftmost match `12:34` to `754`
leaving `"754:56"`, and a second pass then matches `54:56`, giving
`"73296"`. -/
theorem c8_counterexample :
    normalizeTimeStr "12:34:56" = "754:56" ∧
    normalizeTimeStr (normalizeTimeStr "12:34:56") = "73296" ∧
    normalizeTimeStr (normalizeTimeStr "12:34:56") ≠
      normalizeTimeStr "12:34:56" := by
  decide

/-- C8 amended: normalization is correct on HH:MM literals
(`"09:15"` → `"555"`, `"15:20"` → `"920"`), and applying it twice equals
applying it once whenever the first pass leaves no residual
`\d{1,2}:\d{2}` match (true for isolated literals, false e.g. for
`"12:34:56"`). -/
theorem c8_normalize_time (s : String)
    (h : noTimeMatch (normalizeTimeStr s).data = true) :
    normalizeTimeStr "09:15" = "555" ∧ normalizeTimeStr "15:20" = "920" ∧
    normalizeTimeStr (normalizeTimeStr s) = normalizeTimeStr s := by
  refine ⟨by decide, by decide, ?_⟩
  show String.mk (normalizeTime (normalizeTimeStr s).data) = normalizeTimeStr s
  rw [normalizeTime, runSub,
    subAll_matchTime_eq_of_noTimeMatch _ _ h]

/-- Witness for C8 at `"09:15"`. -/
theorem c8_normalize_time_witness :
    normalizeTimeStr (normalizeTimeStr "09:15") = normalizeTimeStr "09:15" := by
  exact (c8_normalize_time "09:15" (by decide)).2.2

unseal Rat.add Rat.sub Rat.mul Rat.inv in
/-- C7 counterexample: in the statistics scenario (one never-entered, one
profitable exit, one stop-out), the stopped-out strategy also ends in
state CLOSED (only MARKET_CLOSE maps to FORCE_CLOSED), so `completed = 2`,
not `1` as claimed. -/
theorem c7_counterexample :
    s7_never.state = .CREATED ∧
    s7_winner.state = .CLOSED ∧ s7_winner.pnl = 50 ∧
    s7_stopped.state = .CLOSED ∧ s7_stopped.exit_reason = some .STOP_LOSS ∧
    s7_stopped.pnl = -50 ∧
    (get_statistics s7_roster).completed = 2 ∧
    (get_statistics s7_roster).completed ≠ 1 := by
  decide

unseal Rat.add Rat.sub Rat.mul Rat.inv in
/-- C7 amended: the scenario yields `total = 3`, `never_entered = 1`,
`completed = 2` (both the profitable exit and the stop-out end CLOSED),
`force_closed = 0`, `failed = 0`, and `total_pnl` equal to the sum of the
two realized PnLs (+50 and -50). -/
theorem c7_statistics_scenario :
    get_statistics s7_roster =
      { total := 3, completed := 2, force_closed := 0, failed := 0,
        never_entered := 1, total_pnl := s7_winner.pnl + s7_stopped.pnl,
        winners := 1, losers := 1 } ∧
    s7_winner.pnl + s7_stopped.pnl = 0 := by
  decide

/-- C6: for every strategy with `entry_price` set,
`pnl(price) = (price - entry_price) * quantity` (no short-side sign flip);
entry at 100 with quantity 10 gives `+50` at exit 105 and `-50` at exit 95. -/
theorem c6_calculate_pnl_formula (s : Trading.Strategy) (price e : Rat)
    (h : s.entry_price = some e) :
    s.calculate_pnl price = (price - e) * (s.quantity : Rat) ∧
    (∀ s' : Trading.Strategy, s'.entry_price = some 100 → s'.quantity = 10 →
      s'.calculate_pnl 105 = 50 ∧ s'.calculate_pnl 95 = -50) := by
  constructor
  · simp [Trading.Strategy.calculate_pnl, h]
  · intro s' h1 h2
    simp [Trading.Strategy.calculate_pnl, h1, h2]
    norm_num

/-- Witness for C6 at a concrete strategy entered at 100 with quantity 10. -/
theorem c6_calculate_pnl_formula_witness :
    ({ strategy_id := "s1", instrument := "NIFTY", entry_condition := "",
       exit_condition := "", quantity := 10, max_loss := 50, max_profit := 50,
       state := .OPEN, entry_price := some 100 : Trading.Strategy
     }).calculate_pnl 105 = (105 - 100) * (10 : Rat) := by
  exact (c6_calculate_pnl_formula _ 105 100 rfl).1

/-! ## C4: lifecycle field invariant -/

/-- Exiting preserves the entry price and records exit price and reason. -/
theorem strategyInv_exitPos (s : Strategy) (price : Rat) (r : ExitReason)
    (h : s.entry_price ≠ none) : StrategyInv (s.exitPos price r) := by
  refine ⟨fun _ => ?_, fun _ => ⟨?_, ?_, ?_⟩⟩ <;> simp [Strategy.exitPos, h]

/-- Every engine operation preserves the directional field invariant. -/
theorem strategyInv_step {s s' : Strategy} (hinv : StrategyInv s)
    (hstep : EngineStep s s') : StrategyInv s' := by
  cases hstep with
  | tick p t =>
    by_cases h1 : s.state = .CREATED
    · by_cases h2 : evaluate s.entry_condition p t
      · simpa [evaluateStrategy, h1, h2] using
          ⟨fun _ => by simp [Strategy.enter], fun hc => by
            simp [Strategy.enter] at hc⟩
      · simpa [evaluateStrategy, h1, h2] using hinv
    · by_cases h3 : s.state = .OPEN
      · have hentry := hinv.1 h3
        by_cases h4 : s.calculate_pnl p ≤ -s.max_loss
        · simpa [evaluateStrategy, h1, h3, h4] using
            strategyInv_exitPos s p .STOP_LOSS hentry
        · by_cases h5 : s.calculate_pnl p ≥ s.max_profit
          · simpa [evaluateStrategy, h1, h3, h4, h5] using
              strategyInv_exitPos s p .TARGET_HIT hentry
          · by_cases h6 : evaluate s.exit_condition p t
            · simpa [evaluateStrategy, h1, h3, h4, h5, h6] using
                strategyInv_exitPos s p .EXIT_CONDITION hentry
            · simpa [evaluateStrategy, h1, h3, h4, h5, h6] using hinv
      · simpa [evaluateStrategy, h1, h3] using hinv
  | close prices =>
    by_cases h1 : s.is_open
    · have hopen : s.state = .OPEN := by
        simpa [Strategy.is_open] using h1
      simpa [forceCloseStrategy, h1] using
        strategyInv_exitPos s (get_current_price prices s.instrument)
          .MARKET_CLOSE (hinv.1 hopen)
    · simpa [forceCloseStrategy, h1] using hinv
  | fail =>
    exact ⟨fun hc => by simp [Strategy.mark_failed] at hc,
      fun hc => by simp [Strategy.mark_failed] at hc⟩

/-- C4 counterexample: the claimed iff fails.  `mark_failed` (the exception
handler of `_run_strategy`) can move a freshly CREATED strategy directly to
FAILED: the record is reachable, its state has progressed beyond CREATED,
yet `entry_price` is still unset. -/
theorem c4_counterexample :
    Reachable c4_init c4_init.mark_failed ∧
    c4_init.mark_failed.state ≠ .CREATED ∧
    c4_init.mark_failed.entry_price = none := by
  refine ⟨Relation.ReflTransGen.single (EngineStep.fail _), ?_, rfl⟩
  simp [Strategy.mark_failed, c4_init, mkStrategy]

/-- C4 amended: for every strategy record reachable by engine operations
from a freshly configured (CREATED) strategy, state OPEN implies
`entry_price` is set, and state CLOSED or FORCE_CLOSED implies
`entry_price`, `exit_price` and `exit_reason` are all set; this directional
invariant is preserved by every operation (per-tick evaluation, force-close,
mark_failed).  The claimed "if and only if" fails only because `mark_failed`
can take a CREATED record straight to FAILED. -/
theorem c4_lifecycle_invariant (s0 s : Strategy)
    (h0 : s0.state = .CREATED) (hr : Reachable s0 s) : StrategyInv s := by
  induction hr with
  | refl => exact ⟨by simp [h0], by simp [h0]⟩
  | tail _ hstep ih => exact strategyInv_step ih hstep

/-- Witness for C4 at the initial strategy itself. -/
theorem c4_lifecycle_invariant_witness : StrategyInv c4_init :=
  c4_lifecycle_invariant c4_init c4_init rfl Relation.ReflTransGen.refl

/-! ## C5: one round of tick generation and broadcast -/

/-- Updating a present key makes its lookup return the new value. -/
theorem lookup_updatePrice_self (k : String) (v : Rat) :
    ∀ (m : List (String × Rat)) (p : Rat), m.lookup k = some p →
      (updatePrice k v m).lookup k = some v := by
  intro m
  induction m with
  | nil => intro p h; cases h
  | cons hd rest ih =>
    intro p h
    obtain ⟨a, b⟩ := hd
    rw [updatePrice]
    by_cases hak : a = k
    · subst hak
      rw [if_pos rfl]
      simp [List.lookup]
    · have hka : (k == a) = false := by
        simp only [beq_eq_false_iff_ne]
        exact fun hc => hak hc.symm
      rw [if_neg hak]
      simp only [List.lookup, hka] at h ⊢
      exact ih p h

/-- Updating key `k` leaves every other key's lookup unchanged. -/
theorem lookup_updatePrice_ne (k k' : String) (v : Rat) (h : k' ≠ k) :
    ∀ m : List (String × Rat),
      (updatePrice k v m).lookup k' = m.lookup k' := by
  intro m
  induction m with
  | nil => rfl
  | cons hd rest ih =>
    obtain ⟨a, b⟩ := hd
    rw [updatePrice]
    by_cases hak : a = k
    · subst hak
      have hka : (k' == a) = false := by
        simp only [beq_eq_false_iff_ne]
        exact h
      rw [if_pos rfl]
      simp only [List.lookup, hka]
      exact ih
    · rw [if_neg hak]
      simp only [List.lookup]
      cases hk'a : (k' == a) with
      | true => rfl
      | false => exact ih

/-- Specification of the tick-generation loop: every subscribed instrument
gets the random-walk price update and its queues receive the tick (if they
have room); every other instrument's price is untouched. -/
theorem genRoundGo_spec (u : String → Rat)
    (subs : List (String × List (List MarketTick))) :
    ∀ (prices pricesF : List (String × Rat))
      (subsF : List (String × List (List MarketTick))),
      (subs.map Prod.fst).Nodup →
      genRoundGo u subs prices = some (pricesF, subsF) →
      ((∀ instr qs, (instr, qs) ∈ subs →
        ∃ p, prices.lookup instr = some p ∧
          pricesF.lookup instr = some (round2 (p * (1 + u instr))) ∧
          (instr, qs.map fun q => putQueue q ⟨instr, round2 (p * (1 + u instr))⟩)
            ∈ subsF) ∧
       (∀ instr, instr ∉ subs.map Prod.fst →
         pricesF.lookup instr = prices.lookup instr)) := by
  induction subs with
  | nil =>
    intro prices pricesF subsF _ h
    simp [genRoundGo] at h
    obtain ⟨rfl, rfl⟩ := h
    exact ⟨by simp, fun instr _ => rfl⟩
  | cons hd rest ih =>
    obtain ⟨i0, qs0⟩ := hd
    intro prices pricesF subsF hnodup h
    rw [genRoundGo] at h
    cases hp : prices.lookup i0 with
    | none => rw [hp] at h; cases h
    | some p0 =>
      rw [hp] at h
      simp only at h
      cases hrec : genRoundGo u rest
          (updatePrice i0 (round2 (p0 * (1 + u i0))) prices) with
      | none => rw [hrec] at h; cases h
      | some pr =>
        obtain ⟨pricesF', subsF'⟩ := pr
        rw [hrec] at h
        obtain ⟨rfl, rfl⟩ : pricesF' = pricesF ∧
            (i0, qs0.map fun q =>
              putQueue q ⟨i0, round2 (p0 * (1 + u i0))⟩) :: subsF' = subsF := by
          cases h; exact ⟨rfl, rfl⟩
        rw [List.map_cons, List.nodup_cons] at hnodup
        obtain ⟨hnd1, hnd2⟩ := hnodup
        obtain ⟨ih1, ih2⟩ := ih _ _ _ hnd2 hrec
        constructor
        · intro instr qs hmem
          rcases List.mem_cons.mp hmem with heq | hmem'
          · obtain ⟨rfl, rfl⟩ : i0 = instr ∧ qs0 = qs := by
              cases heq; exact ⟨rfl, rfl⟩
            refine ⟨p0, hp, ?_, List.mem_cons_self _ _⟩
            rw [ih2 i0 hnd1]
            exact lookup_updatePrice_self _ _ _ _ hp
          · obtain ⟨p, hp1, hp2, hp3⟩ := ih1 instr qs hmem'
            have hne : instr ≠ i0 := by
              rintro rfl
              exact hnd1 (List.mem_map.mpr ⟨(instr, qs), hmem', rfl⟩)
            refine ⟨p, ?_, hp2, List.mem_cons_of_mem _ hp3⟩
            rw [← lookup_updatePrice_ne i0 instr
              (round2 (p0 * (1 + u i0))) hne prices]
            exact hp1
        · intro instr hnin
          rw [List.map_cons, List.mem_cons] at hnin
          push_neg at hnin
          rw [ih2 instr hnin.2]
          exact lookup_updatePrice_ne i0 instr _ hnin.1 prices

unseal Rat.add Rat.sub Rat.mul Rat.inv in
/-- C5 counterexample: one round updates only the instruments that have a
subscriber entry.  With NIFTY subscribed and BANKNIFTY merely priced,
BANKNIFTY keeps price 200 instead of the claimed random-walk value 202. -/
theorem c5_counterexample :
    genRound c5_u c5_state =
      some ⟨[("NIFTY", 101), ("BANKNIFTY", 200)],
        [("NIFTY", [[⟨"NIFTY", 101⟩]])]⟩ ∧
    round2 ((200 : Rat) * (1 + c5_u "BANKNIFTY")) = 202 ∧
    ((202 : Rat) ≠ 200) := by
  decide

/-- C5 amended: in each tick-generation round, every instrument *with a
subscriber entry* has its price replaced by `round2(old * (1 + u))` for
that round's draw `u`, and each of its queues receives the new tick via
`putQueue` (appended when the queue has room, dropped when full); every
instrument without a subscriber entry keeps its price unchanged. -/
theorem c5_tick_round (u : String → Rat) (prices : List (String × Rat))
    (subs : List (String × List (List MarketTick))) (out : SimState)
    (hnodup : (subs.map Prod.fst).Nodup)
    (hrun : genRound u ⟨prices, subs⟩ = some out) :
    (∀ instr qs, (instr, qs) ∈ subs →
      ∃ p, prices.lookup instr = some p ∧
        out.current_prices.lookup instr = some (round2 (p * (1 + u instr))) ∧
        (instr, qs.map fun q => putQueue q ⟨instr, round2 (p * (1 + u instr))⟩)
          ∈ out.subscribers) ∧
    (∀ instr, instr ∉ subs.map Prod.fst →
      out.current_prices.lookup instr = prices.lookup instr) := by
  unfold genRound at hrun
  cases hgo : genRoundGo u subs prices with
  | none => rw [hgo] at hrun; cases hrun
  | some pr =>
    obtain ⟨pF, sF⟩ := pr
    rw [hgo] at hrun
    simp only [Option.map_some'] at hrun
    obtain ⟨rfl, rfl⟩ : pF = out.current_prices ∧ sF = out.subscribers := by
      cases hrun; exact ⟨rfl, rfl⟩
    exact genRoundGo_spec u subs prices _ _ hnodup hgo

unseal Rat.add Rat.sub Rat.mul Rat.inv in
/-- Witness for C5 applied to the concrete one-subscriber state. -/
theorem c5_tick_round_witness :
    ∃ p, ([("NIFTY", (100 : Rat))].lookup "NIFTY") = some p ∧
      (SimState.current_prices ⟨[("NIFTY", 101)], [("NIFTY", [[⟨"NIFTY", 101⟩]])]⟩).lookup
          "NIFTY" = some (round2 (p * (1 + c5_u "NIFTY"))) ∧
      ("NIFTY", ([[]] : List (List MarketTick)).map fun q =>
          putQueue q ⟨"NIFTY", round2 (p * (1 + c5_u "NIFTY"))⟩) ∈
        (SimState.subscribers ⟨[("NIFTY", 101)], [("NIFTY", [[⟨"NIFTY", 101⟩]])]⟩) := by
  exact (c5_tick_round c5_u [("NIFTY", 100)] [("NIFTY", [[]])]
    ⟨[("NIFTY", 101)], [("NIFTY", [[⟨"NIFTY", 101⟩]])]⟩
    (by decide) (by decide)).1 "NIFTY" [[]] (by decide)
